import Mathlib

/-!
Verification of the excel-mapper column-mapping and row-classification
engine (`main.go`), shallowly embedded in Lean 4.

Rows and headers are lists of strings; the Go `map[string]string` of field
mappings is modelled as a total function `String → String` (a missing key
yields `""`, exactly as a Go map read does).  Go's `strings.ToLower` and
`strings.TrimSpace` are embedded as character-list operations so that all
definitions evaluate inside the kernel.
-/

namespace ExcelMapper

/-- `config.Field` from `config/field_config.go`. -/
structure Field where
  name : String
  displayName : String
  isMandatory : Bool

/-- `config.FieldConfig` from `config/field_config.go`. -/
structure FieldConfig where
  fields : List Field
  mandatoryFields : List String

/-- Embedding of Go `strings.ToLower` (character-wise lowering). -/
def goToLower (s : String) : String :=
  ⟨s.data.map Char.toLower⟩

/-- Embedding of Go `strings.TrimSpace`: drop whitespace from both ends. -/
def goTrim (s : String) : String :=
  ⟨((s.data.dropWhile Char.isWhitespace).reverse.dropWhile Char.isWhitespace).reverse⟩

/-- One header normalization step, `strings.TrimSpace(strings.ToLower(h))`,
as used both by `normalizeHeaders` and inside `processRow` (main.go:344, 517). -/
def normalizeHeader (s : String) : String :=
  goTrim (goToLower s)

/-- `normalizeHeaders` (main.go:341-347). -/
def normalizeHeaders (headers : List String) : List String :=
  headers.map normalizeHeader

/-- The `isMandatory` lookup loop at the top of `processRow` (main.go:498-504):
linear scan of `fieldConfig.Fields`, first name match wins, default `false`. -/
def lookupMandatory (fieldConfig : FieldConfig) (expectedField : String) : Bool :=
  match fieldConfig.fields.find? (fun field => field.name == expectedField) with
  | some field => field.isMandatory
  | none => false

/-- The column-search loop of `processRow` (main.go:520-526): linear scan of
the normalized headers, first match wins, `none` plays the role of `-1`. -/
def findColumn : List String → String → Option Nat
  | [], _ => none
  | header :: rest, target =>
    if header = target then some 0
    else (findColumn rest target).map (· + 1)

/-- The resolution test of `processRow` (main.go:528):
`columnIndex != -1 && columnIndex < len(row) && strings.TrimSpace(row[columnIndex]) != ""`,
returning the raw cell on success. -/
def resolveCell (row : List String) (normalizedHeaders : List String)
    (normalizedColumnHeader : String) : Option String :=
  match findColumn normalizedHeaders normalizedColumnHeader with
  | none => none
  | some columnIndex =>
    match row[columnIndex]? with
    | none => none
    | some cell => if goTrim cell ≠ "" then some cell else none

/-- The four results of `processRow`. -/
structure RowResult where
  processedRow : List String
  missingRow : List String
  missingFields : List String
  isSuccess : Bool

/-- `processRow` (main.go:491-550), structurally recursive over `order`;
each loop iteration writes one index of both output rows. -/
def processRow (row : List String) (normalizedHeaders : List String)
    (fieldMappings : String → String) (order : List String)
    (fieldConfig : FieldConfig) : RowResult :=
  match order with
  | [] => { processedRow := [], missingRow := [], missingFields := [], isSuccess := true }
  | expectedField :: restOrder =>
    let tail := processRow row normalizedHeaders fieldMappings restOrder fieldConfig
    let isMandatory := lookupMandatory fieldConfig expectedField
    let mappedColumn := fieldMappings expectedField
    if mappedColumn = "" ∧ isMandatory = false then
      { processedRow := "" :: tail.processedRow,
        missingRow := "" :: tail.missingRow,
        missingFields := tail.missingFields,
        isSuccess := tail.isSuccess }
    else
      match resolveCell row normalizedHeaders (normalizeHeader mappedColumn) with
      | some cell =>
        { processedRow := cell :: tail.processedRow,
          missingRow := cell :: tail.missingRow,
          missingFields := tail.missingFields,
          isSuccess := tail.isSuccess }
      | none =>
        if isMandatory then
          { processedRow := "" :: tail.processedRow,
            missingRow := "MISSING" :: tail.missingRow,
            missingFields := expectedField :: tail.missingFields,
            isSuccess := false }
        else
          { processedRow := "" :: tail.processedRow,
            missingRow := (if mappedColumn ≠ "" then "MISSING" else "") :: tail.missingRow,
            missingFields := tail.missingFields,
            isSuccess := tail.isSuccess }

/-- Specification-side per-field value of the processed row. -/
def processedCell (row : List String) (normalizedHeaders : List String)
    (fieldMappings : String → String) (fieldConfig : FieldConfig) (f : String) : String :=
  if fieldMappings f = "" ∧ lookupMandatory fieldConfig f = false then ""
  else
    match resolveCell row normalizedHeaders (normalizeHeader (fieldMappings f)) with
    | some cell => cell
    | none => ""

/-- Specification-side per-field value of the missing row. -/
def missingCell (row : List String) (normalizedHeaders : List String)
    (fieldMappings : String → String) (fieldConfig : FieldConfig) (f : String) : String :=
  if fieldMappings f = "" ∧ lookupMandatory fieldConfig f = false then ""
  else
    match resolveCell row normalizedHeaders (normalizeHeader (fieldMappings f)) with
    | some cell => cell
    | none =>
      if lookupMandatory fieldConfig f then "MISSING"
      else if fieldMappings f ≠ "" then "MISSING" else ""

/-- Specification-side list of the mandatory fields that fail to resolve on a
row, in `order` order. -/
def failedMandatoryFields (row : List String) (normalizedHeaders : List String)
    (fieldMappings : String → String) (order : List String)
    (fieldConfig : FieldConfig) : List String :=
  order.filter fun f =>
    lookupMandatory fieldConfig f &&
      (resolveCell row normalizedHeaders (normalizeHeader (fieldMappings f))).isNone

theorem processRow_eq (row normalizedHeaders : List String)
    (fieldMappings : String → String) (order : List String) (fieldConfig : FieldConfig) :
    processRow row normalizedHeaders fieldMappings order fieldConfig =
      { processedRow := order.map (processedCell row normalizedHeaders fieldMappings fieldConfig),
        missingRow := order.map (missingCell row normalizedHeaders fieldMappings fieldConfig),
        missingFields := failedMandatoryFields row normalizedHeaders fieldMappings order fieldConfig,
        isSuccess :=
          (failedMandatoryFields row normalizedHeaders fieldMappings order fieldConfig).isEmpty } := by
  induction order with
  | nil => rfl
  | cons f rest ih =>
    unfold processRow
    rw [ih]
    cases hm : lookupMandatory fieldConfig f with
    | false =>
      by_cases he : fieldMappings f = ""
      · simp [failedMandatoryFields, processedCell, missingCell, he, hm, List.filter_cons]
      · cases hr : resolveCell row normalizedHeaders (normalizeHeader (fieldMappings f)) with
        | none =>
          simp [failedMandatoryFields, processedCell, missingCell, he, hm, hr, List.filter_cons]
        | some cell =>
          simp [failedMandatoryFields, processedCell, missingCell, he, hm, hr, List.filter_cons]
    | true =>
      cases hr : resolveCell row normalizedHeaders (normalizeHeader (fieldMappings f)) with
      | none =>
        simp [failedMandatoryFields, processedCell, missingCell, hm, hr, List.filter_cons]
      | some cell =>
        simp [failedMandatoryFields, processedCell, missingCell, hm, hr, List.filter_cons]

/-- Accumulated state of the row loop of `processFile` (main.go:583-597):
the two output sheets (as row lists), the summary-line builder and the two
counters. -/
structure BatchResult where
  processedRows : List (List String)
  missingRows : List (List String)
  missingDetails : String
  successfulRows : Nat
  missingCount : Nat

/-- The row loop of `processFile` (main.go:583-597): `i` is the 0-based index
of the current row in the input file; the header row (`i = 0`) is skipped, and
each unsuccessful row with failed mandatory fields appends a
`"Row <i+1>: Missing mandatory fields - ..."` line. -/
def processRowsLoop (rows : List (List String)) (i : Nat) (normalizedHeaders : List String)
    (fieldMappings : String → String) (order : List String)
    (fieldConfig : FieldConfig) : BatchResult :=
  match rows, i with
  | [], _ =>
    { processedRows := [], missingRows := [], missingDetails := "",
      successfulRows := 0, missingCount := 0 }
  | _row :: rest, 0 => processRowsLoop rest 1 normalizedHeaders fieldMappings order fieldConfig
  | row :: rest, i+1 =>
    let r := processRow row normalizedHeaders fieldMappings order fieldConfig
    let tail := processRowsLoop rest (i+2) normalizedHeaders fieldMappings order fieldConfig
    if r.isSuccess then
      { processedRows := r.processedRow :: tail.processedRows,
        missingRows := tail.missingRows,
        missingDetails := tail.missingDetails,
        successfulRows := tail.successfulRows + 1,
        missingCount := tail.missingCount }
    else
      { processedRows := tail.processedRows,
        missingRows := r.missingRow :: tail.missingRows,
        missingDetails :=
          (if r.missingFields.length > 0 then
            "Row " ++ toString (i+2) ++ ": Missing mandatory fields - " ++
              String.intercalate ", " r.missingFields ++ "\n"
           else "") ++ tail.missingDetails,
        successfulRows := tail.successfulRows,
        missingCount := tail.missingCount + 1 }

/-- Specification-side form of the summary lines: data rows numbered from `n`,
one line per row whose mandatory fields did not all resolve, naming exactly
those fields comma-joined in field order. -/
def summaryLines (dataRows : List (List String)) (n : Nat) (normalizedHeaders : List String)
    (fieldMappings : String → String) (order : List String)
    (fieldConfig : FieldConfig) : String :=
  match dataRows with
  | [] => ""
  | row :: rest =>
    (if (failedMandatoryFields row normalizedHeaders fieldMappings order fieldConfig).isEmpty then ""
     else
       "Row " ++ toString n ++ ": Missing mandatory fields - " ++
         String.intercalate ", "
           (failedMandatoryFields row normalizedHeaders fieldMappings order fieldConfig) ++ "\n")
    ++ summaryLines rest (n+1) normalizedHeaders fieldMappings order fieldConfig

/-- `generateProcessingSummary` (main.go:361-372). -/
def generateProcessingSummary (totalRows successfulRows missingCount : Nat)
    (missingDetails : String) : String :=
  "Data Mapping Summary:\n" ++
  (if missingDetails ≠ "" then missingDetails else "") ++
  "\nTotal Rows Processed: " ++ toString totalRows ++ "\n" ++
  "Successful Rows: " ++ toString successfulRows ++ "\n" ++
  "Rows with Missing Data: " ++ toString missingCount ++ "\n"

/-- The summary computed by `processFile` (main.go:589-601) once the rows have
been read: headers are the normalized first row, the loop runs from index 0. -/
def fileSummary (rows : List (List String)) (fieldMappings : String → String)
    (order : List String) (fieldConfig : FieldConfig) : String :=
  let normalizedHeaders := normalizeHeaders (rows.headD [])
  let batch := processRowsLoop rows 0 normalizedHeaders fieldMappings order fieldConfig
  generateProcessingSummary (rows.length - 1) batch.successfulRows batch.missingCount
    batch.missingDetails

/-- `processFile` after a successful read (main.go:577-629), returning
`(summary, artifactPath)`.  The three fallible save calls (`saveAsCSV`,
`saveAsMarkdown`, `saveAsXLSX`) perform file I/O and are therefore passed in
as `Except`-valued outcomes; on a save error the code prints the error and
returns the summary with an empty artifact path. -/
def processFileModel (rows : List (List String)) (fieldMappings : String → String)
    (order : List String) (fieldConfig : FieldConfig) (outputFormat : String)
    (saveCSVResult saveMarkdownResult saveXLSXResult : Except String String) :
    String × String :=
  if rows.length = 0 then ("No data found in the file.", "No data found in the file")
  else
    let summary := fileSummary rows fieldMappings order fieldConfig
    if outputFormat = "csv" then
      match saveCSVResult with
      | .error _ => (summary, "")
      | .ok outputFilePath => (summary, outputFilePath)
    else if outputFormat = "markdown" then
      match saveMarkdownResult with
      | .error _ => (summary, "")
      | .ok outputFilePath => (summary, outputFilePath)
    else
      match saveXLSXResult with
      | .error _ => (summary, "")
      | .ok outputFilePath => (summary, outputFilePath)

/-- Embedding of Go `strings.ReplaceAll(s, old, new)` for a non-empty pattern
`p :: ps`: leftmost, non-overlapping replacement. -/
def goReplaceAll (p : Char) (ps rep : List Char) : List Char → List Char
  | [] => []
  | c :: rest =>
    if p = c ∧ ps.isPrefixOf rest then
      rep ++ goReplaceAll p ps rep (rest.drop ps.length)
    else
      c :: goReplaceAll p ps rep rest
  termination_by l => l.length
  decreasing_by
    · simp only [List.length_drop, List.length_cons]
      omega
    · simp only [List.length_cons]
      omega

/-- The cell escaping of `generateMarkdownTable` (main.go:649):
`strings.ReplaceAll(cell, "|", "\\|")`. -/
def escapeCell (cell : String) : String :=
  ⟨goReplaceAll '|' [] ['\\', '|'] cell.data⟩

/-- A `for`-loop of `WriteString`s over a list, as a single concatenation. -/
def concatMap {α : Type} (f : α → String) : List α → String
  | [] => ""
  | a :: rest => f a ++ concatMap f rest

/-- `generateMarkdownTable` (main.go:631-657), written as the concatenation
the string builder produces. -/
def generateMarkdownTable (headers : List String) (rows : List (List String)) : String :=
  "| " ++ concatMap (fun header => header ++ " | ") headers ++ "\n|" ++
  concatMap (fun _ => " --- |") headers ++ "\n" ++
  concatMap (fun row =>
    "| " ++ concatMap (fun cell => escapeCell cell ++ " | ") row ++ "\n") rows

theorem processRowsLoop_succ_eq (rows : List (List String)) (i : Nat)
    (normalizedHeaders : List String) (fieldMappings : String → String)
    (order : List String) (fieldConfig : FieldConfig) :
    processRowsLoop rows (i+1) normalizedHeaders fieldMappings order fieldConfig =
      { processedRows :=
          (rows.filter (fun row =>
            (processRow row normalizedHeaders fieldMappings order fieldConfig).isSuccess)).map
            (fun row => (processRow row normalizedHeaders fieldMappings order fieldConfig).processedRow),
        missingRows :=
          (rows.filter (fun row =>
            !(processRow row normalizedHeaders fieldMappings order fieldConfig).isSuccess)).map
            (fun row => (processRow row normalizedHeaders fieldMappings order fieldConfig).missingRow),
        missingDetails := summaryLines rows (i+2) normalizedHeaders fieldMappings order fieldConfig,
        successfulRows :=
          (rows.filter (fun row =>
            (processRow row normalizedHeaders fieldMappings order fieldConfig).isSuccess)).length,
        missingCount :=
          (rows.filter (fun row =>
            !(processRow row normalizedHeaders fieldMappings order fieldConfig).isSuccess)).length } := by
  induction rows generalizing i with
  | nil => rfl
  | cons row rest ih =>
    have hmf := processRow_eq row normalizedHeaders fieldMappings order fieldConfig
    simp only [processRowsLoop]
    rw [show i + 2 = (i+1) + 1 from rfl, ih]
    cases hs : (processRow row normalizedHeaders fieldMappings order fieldConfig).isSuccess with
    | true =>
      have hempty :
          (failedMandatoryFields row normalizedHeaders fieldMappings order fieldConfig).isEmpty
            = true := by rw [hmf] at hs; exact hs
      simp [hs, hempty, summaryLines, List.filter_cons]
    | false =>
      have hempty :
          (failedMandatoryFields row normalizedHeaders fieldMappings order fieldConfig).isEmpty
            = false := by rw [hmf] at hs; exact hs
      have hfields :
          (processRow row normalizedHeaders fieldMappings order fieldConfig).missingFields =
            failedMandatoryFields row normalizedHeaders fieldMappings order fieldConfig := by
        rw [hmf]
      have hpos :
          0 < (failedMandatoryFields row normalizedHeaders fieldMappings order fieldConfig).length := by
        cases hcase : failedMandatoryFields row normalizedHeaders fieldMappings order fieldConfig with
        | nil => rw [hcase] at hempty; simp [List.isEmpty] at hempty
        | cons a l => simp [hcase]
      simp [hs, hempty, hfields, hpos, summaryLines, List.filter_cons]

theorem mem_of_idx {α : Type} {l : List α} {n : Nat} {a : α} (h : l[n]? = some a) : a ∈ l := by
  induction l generalizing n with
  | nil => simp at h
  | cons x xs ih =>
    cases n with
    | zero =>
      simp only [List.getElem?_cons_zero, Option.some.injEq] at h
      simp [h]
    | succ m =>
      simp only [List.getElem?_cons_succ] at h
      exact List.mem_cons_of_mem _ (ih h)

theorem findColumn_eq_some_iff (l : List String) (t : String) (j : Nat) :
    findColumn l t = some j ↔
      j < l.length ∧ l.getD j "" = t ∧ ∀ k, k < j → l.getD k "" ≠ t := by
  induction l generalizing j with
  | nil => simp [findColumn]
  | cons h rest ih =>
    by_cases hh : h = t
    · simp only [findColumn, if_pos hh]
      cases j with
      | zero => simp [hh]
      | succ j' =>
        constructor
        · intro heq
          exact absurd (Option.some.inj heq) (by omega)
        · rintro ⟨-, -, hlt⟩
          exact absurd hh (by simpa using hlt 0 (Nat.succ_pos _))
    · simp only [findColumn, if_neg hh, Option.map_eq_some']
      cases j with
      | zero =>
        constructor
        · rintro ⟨a, -, ha⟩
          exact absurd ha (by omega)
        · rintro ⟨-, hget, -⟩
          exact absurd (by simpa using hget) hh
      | succ j' =>
        constructor
        · rintro ⟨a, hfind, ha⟩
          rw [show a = j' from by omega] at hfind
          obtain ⟨h1, h2, h3⟩ := (ih j').mp hfind
          refine ⟨by simpa using Nat.succ_lt_succ h1, by simpa using h2, ?_⟩
          intro k hk
          cases k with
          | zero => simpa using hh
          | succ k' => simpa using h3 k' (by omega)
        · rintro ⟨h1, h2, h3⟩
          refine ⟨j', (ih j').mpr ⟨by simpa using h1, by simpa using h2, ?_⟩, rfl⟩
          intro k hk
          simpa using h3 (k+1) (by omega)

theorem normalizeHeaders_getD (headers : List String) (k : Nat) :
    (normalizeHeaders headers).getD k "" = normalizeHeader (headers.getD k "") := by
  rw [List.getD_eq_getElem?_getD, List.getD_eq_getElem?_getD]
  unfold normalizeHeaders
  rw [List.getElem?_map]
  cases headers[k]? with
  | none => rfl
  | some h => rfl

theorem foldl_append_eq (l : List String) (acc : String) :
    List.foldl (fun r t => r ++ t) acc l = acc ++ List.foldl (fun r t => r ++ t) "" l := by
  induction l generalizing acc with
  | nil => simp [String.append_empty]
  | cons a as ih =>
    simp only [List.foldl_cons]
    rw [ih (acc ++ a), ih ("" ++ a), String.empty_append, String.append_assoc]

theorem joinStr_cons (s : String) (l : List String) :
    String.join (s :: l) = s ++ String.join l := by
  show List.foldl (fun r t => r ++ t) ("" ++ s) l = s ++ List.foldl (fun r t => r ++ t) "" l
  rw [String.empty_append, foldl_append_eq]

theorem intercalate_go_eq (sep acc : String) (l : List String) :
    String.intercalate.go acc sep l = acc ++ concatMap (fun x => sep ++ x) l := by
  induction l generalizing acc with
  | nil => simp [String.intercalate.go, concatMap, String.append_empty]
  | cons a as ih =>
    simp only [String.intercalate.go, concatMap, ih, String.append_assoc]

theorem concatMap_sep_eq (headers : List String) (hne : headers ≠ []) :
    concatMap (fun header => header ++ " | ") headers =
      String.intercalate " | " headers ++ " | " := by
  cases headers with
  | nil => exact absurd rfl hne
  | cons a as =>
    rw [show String.intercalate " | " (a :: as) = String.intercalate.go a " | " as from rfl,
      intercalate_go_eq]
    clear hne
    induction as generalizing a with
    | nil => simp [concatMap, String.append_empty]
    | cons b bs ih =>
      simp only [concatMap] at ih ⊢
      rw [ih b]
      simp [String.append_assoc]

theorem concatMap_const_replicate (headers : List String) :
    concatMap (fun _ => " --- |") headers =
      String.join (List.replicate headers.length " --- |") := by
  induction headers with
  | nil => rfl
  | cons a as ih =>
    simp only [concatMap, List.length_cons, List.replicate_succ, joinStr_cons, ih]

theorem goReplaceAll_pipe_eq (l : List Char) :
    goReplaceAll '|' [] ['\\', '|'] l =
      (l.map (fun c => if c = '|' then ['\\', '|'] else [c])).flatten := by
  induction l with
  | nil => simp [goReplaceAll]
  | cons c rest ih =>
    by_cases hc : c = '|'
    · subst hc
      simp [goReplaceAll, List.isPrefixOf, ih]
    · rw [goReplaceAll, if_neg (fun hand => hc hand.1.symm)]
      simp [hc, ih]

theorem flatten_pipe_id (l : List Char) (hall : l.all (fun c => !(c = '|')) = true) :
    (l.map (fun c => if c = '|' then ['\\', '|'] else [c])).flatten = l := by
  induction l with
  | nil => rfl
  | cons c rest ih =>
    simp only [List.all_cons, Bool.and_eq_true] at hall
    have hc : ¬(c = '|') := by simpa using hall.1
    simp [hc, ih hall.2]

/-- C3: the mapped column name is normalized (trim + lowercase) and compared for
exact equality against the identically normalized headers, scanned left to
right; a match is found at index `j` exactly when header `j` normalizes to the
normalized mapped name and no earlier header does — case/whitespace-insensitive
but otherwise exact, with collisions resolving to the leftmost column. -/
theorem headerMatching_leftmost_exact (headers : List String) (mappedColumn : String) (j : Nat) :
    findColumn (normalizeHeaders headers) (normalizeHeader mappedColumn) = some j ↔
      (j < headers.length ∧
       normalizeHeader (headers.getD j "") = normalizeHeader mappedColumn ∧
       ∀ k, k < j → normalizeHeader (headers.getD k "") ≠ normalizeHeader mappedColumn) := by
  rw [findColumn_eq_some_iff]
  have hlen : (normalizeHeaders headers).length = headers.length := by
    simp [normalizeHeaders]
  constructor
  · rintro ⟨h1, h2, h3⟩
    rw [hlen] at h1
    refine ⟨h1, by rwa [normalizeHeaders_getD] at h2, fun k hk => ?_⟩
    have := h3 k hk
    rwa [normalizeHeaders_getD] at this
  · rintro ⟨h1, h2, h3⟩
    refine ⟨by rwa [hlen], by rwa [normalizeHeaders_getD], fun k hk => ?_⟩
    rw [normalizeHeaders_getD]
    exact h3 k hk

/-- Witness for C3 at a concrete header list: `" ACCOUNT Number "` matches
header `"account NUMBER"` at index 1, not index 0. -/
theorem headerMatching_leftmost_exact_witness :
    findColumn (normalizeHeaders ["Other", "account NUMBER"])
        (normalizeHeader " ACCOUNT Number ") = some 1 :=
  (headerMatching_leftmost_exact ["Other", "account NUMBER"] " ACCOUNT Number " 1).mpr
    ⟨by decide, by decide, by decide⟩

/-- C6: `generateMarkdownTable` escapes every `'|'` in a data cell as `"\|"`
and alters no other character; a cell without a pipe is rendered verbatim. -/
theorem markdown_escapes_pipes (cell : String) :
    (escapeCell cell).data =
      (cell.data.map (fun c => if c = '|' then ['\\', '|'] else [c])).flatten
  ∧ (cell.data.all (fun c => !(c = '|')) = true → escapeCell cell = cell) := by
  refine ⟨goReplaceAll_pipe_eq cell.data, fun hall => ?_⟩
  apply String.ext
  show goReplaceAll '|' [] ['\\', '|'] cell.data = cell.data
  rw [goReplaceAll_pipe_eq]
  exact flatten_pipe_id cell.data hall

/-- Witness for C6: a pipe is escaped with a preceding backslash; a pipe-free
cell is unchanged. -/
theorem markdown_escapes_pipes_witness :
    (escapeCell "a|b").data = ['a', '\\', '|', 'b'] ∧ escapeCell "ab" = "ab" := by
  refine ⟨?_, (markdown_escapes_pipes "ab").2 (by decide)⟩
  rw [(markdown_escapes_pipes "a|b").1]
  decide

/-- C7: for a non-empty header list the markdown table begins with the header
line `"| h1 | h2 | ... | hn | "` (trailing space before the newline) followed
by a separator line of `"|"` and `" --- |"` repeated once per header. -/
theorem markdown_header_layout (headers : List String) (rows : List (List String))
    (hne : headers ≠ []) :
    generateMarkdownTable headers rows =
      "| " ++ String.intercalate " | " headers ++ " | " ++ "\n" ++
      ("|" ++ String.join (List.replicate headers.length " --- |") ++ "\n") ++
      concatMap (fun row =>
        "| " ++ concatMap (fun cell => escapeCell cell ++ " | ") row ++ "\n") rows := by
  rw [generateMarkdownTable, concatMap_sep_eq headers hne, concatMap_const_replicate]
  simp only [String.append_assoc]
  rfl

/-- Witness for C7 on concrete headers. -/
theorem markdown_header_layout_witness :
    generateMarkdownTable ["a", "b"] [] = "| a | b | \n| --- | --- |\n" := by
  rw [markdown_header_layout ["a", "b"] [] (by decide)]
  decide

/-- C9: `processRow` is total on malformed rows: both output rows always have
exactly the length of the field order, and a matched column index that is out
of the row's bounds resolves to `none` (treated as a missing field, never an
error). -/
theorem processRow_total_shape (row normalizedHeaders : List String)
    (fieldMappings : String → String) (order : List String) (fieldConfig : FieldConfig) :
    (processRow row normalizedHeaders fieldMappings order fieldConfig).processedRow.length
        = order.length
  ∧ (processRow row normalizedHeaders fieldMappings order fieldConfig).missingRow.length
        = order.length
  ∧ (∀ target j, findColumn normalizedHeaders target = some j → row.length ≤ j →
      resolveCell row normalizedHeaders target = none) := by
  refine ⟨by rw [processRow_eq]; simp, by rw [processRow_eq]; simp, ?_⟩
  intro target j hj hlen
  have hnone : row[j]? = none := List.getElem?_eq_none hlen
  simp [resolveCell, hj, hnone]

/-- Witness for C9: a row shorter than the headers still yields full-length
output rows, and the in-bounds header match at index 1 resolves to `none`. -/
theorem processRow_total_shape_witness :
    (processRow ["only"] ["a", "b"] (fun _ => "") ["f1", "f2", "f3"]
        ⟨[], []⟩).processedRow.length = 3 ∧
    resolveCell ["only"] ["a", "b"] "b" = none := by
  have h := processRow_total_shape ["only"] ["a", "b"] (fun _ => "") ["f1", "f2", "f3"] ⟨[], []⟩
  exact ⟨h.1, h.2.2 "b" 1 (by decide) (by decide)⟩

/-- C1: a data row is classified complete — contributing a ProcessedRow and
counted as successful — iff no mandatory field failed to resolve for that row;
rows failing at least one mandatory field go only to the MissingData set, and
optional-field failures never disqualify a row. -/
theorem row_classification_complete_iff (rows : List (List String)) (i : Nat)
    (normalizedHeaders : List String) (fieldMappings : String → String)
    (order : List String) (fieldConfig : FieldConfig) :
    ((processRowsLoop rows (i+1) normalizedHeaders fieldMappings order fieldConfig).processedRows =
      (rows.filter (fun row =>
        (failedMandatoryFields row normalizedHeaders fieldMappings order fieldConfig).isEmpty)).map
        (fun row => (processRow row normalizedHeaders fieldMappings order fieldConfig).processedRow))
  ∧ ((processRowsLoop rows (i+1) normalizedHeaders fieldMappings order fieldConfig).successfulRows =
      (rows.filter (fun row =>
        (failedMandatoryFields row normalizedHeaders fieldMappings order
          fieldConfig).isEmpty)).length)
  ∧ ((processRowsLoop rows (i+1) normalizedHeaders fieldMappings order fieldConfig).missingRows =
      (rows.filter (fun row =>
        !(failedMandatoryFields row normalizedHeaders fieldMappings order fieldConfig).isEmpty)).map
        (fun row => (processRow row normalizedHeaders fieldMappings order fieldConfig).missingRow))
  ∧ ((processRowsLoop rows (i+1) normalizedHeaders fieldMappings order fieldConfig).missingCount =
      (rows.filter (fun row =>
        !(failedMandatoryFields row normalizedHeaders fieldMappings order
          fieldConfig).isEmpty)).length)
  ∧ (∀ row, (processRow row normalizedHeaders fieldMappings order fieldConfig).isSuccess = true ↔
      ∀ f ∈ order, lookupMandatory fieldConfig f = true →
        (resolveCell row normalizedHeaders
          (normalizeHeader (fieldMappings f))).isSome = true) := by
  have key : ∀ row : List String,
      (processRow row normalizedHeaders fieldMappings order fieldConfig).isSuccess =
        (failedMandatoryFields row normalizedHeaders fieldMappings order fieldConfig).isEmpty := by
    intro row
    rw [processRow_eq]
  rw [processRowsLoop_succ_eq]
  refine ⟨by simp only [key], by simp only [key], by simp only [key], by simp only [key], ?_⟩
  intro row
  rw [key, List.isEmpty_iff, failedMandatoryFields, List.filter_eq_nil_iff]
  constructor
  · intro h f hf hmand
    have h2 := h f hf
    rw [hmand] at h2
    cases hres : resolveCell row normalizedHeaders (normalizeHeader (fieldMappings f)) with
    | none => rw [hres] at h2; simp at h2
    | some c => simp
  · intro h f hf
    simp only [Bool.and_eq_true, not_and]
    intro hmand
    have h2 := h f hf hmand
    cases hres : resolveCell row normalizedHeaders (normalizeHeader (fieldMappings f)) with
    | none => rw [hres] at h2; simp at h2
    | some c => simp

/-- C2: the batch summary contains, for every data row failing at least one
mandatory field, exactly one line `"Row N: Missing mandatory fields - f1, f2"`,
where `N` is the 1-based file position counting the header (first data row is
row 2) and the names are exactly the failed mandatory fields in field order;
complete rows contribute no line. -/
theorem summary_missing_lines (headerRow : List String) (dataRows : List (List String))
    (fieldMappings : String → String) (order : List String) (fieldConfig : FieldConfig) :
    (processRowsLoop (headerRow :: dataRows) 0 (normalizeHeaders headerRow) fieldMappings order
        fieldConfig).missingDetails =
      summaryLines dataRows 2 (normalizeHeaders headerRow) fieldMappings order fieldConfig := by
  show (processRowsLoop dataRows 1 (normalizeHeaders headerRow) fieldMappings order
      fieldConfig).missingDetails = _
  rw [show (1:Nat) = 0 + 1 from rfl, processRowsLoop_succ_eq]

/-- C4: a field whose normalized mapping matches a header at an in-bounds index
with a non-blank cell stores the raw, untrimmed cell value in both the
processed row and the missing row. -/
theorem resolved_cell_is_raw (row normalizedHeaders : List String)
    (fieldMappings : String → String) (order : List String) (fieldConfig : FieldConfig)
    (f : String) (fidx j : Nat) (c : String)
    (horder : order[fidx]? = some f)
    (hreach : fieldMappings f ≠ "" ∨ lookupMandatory fieldConfig f = true)
    (hj : findColumn normalizedHeaders (normalizeHeader (fieldMappings f)) = some j)
    (hc : row[j]? = some c)
    (hne : goTrim c ≠ "") :
    (processRow row normalizedHeaders fieldMappings order fieldConfig).processedRow[fidx]?
        = some c
  ∧ (processRow row normalizedHeaders fieldMappings order fieldConfig).missingRow[fidx]?
        = some c := by
  have hres : resolveCell row normalizedHeaders (normalizeHeader (fieldMappings f)) = some c := by
    simp [resolveCell, hj, hc, hne]
  have hguard : ¬(fieldMappings f = "" ∧ lookupMandatory fieldConfig f = false) := by
    rintro ⟨h1, h2⟩
    rcases hreach with h | h
    · exact h h1
    · rw [h] at h2; simp at h2
  rw [processRow_eq]
  simp only [List.getElem?_map, horder, Option.map_some']
  constructor
  · rw [processedCell, if_neg hguard, hres]
  · rw [missingCell, if_neg hguard, hres]

/-- Witness for C4: a raw cell `" v "` (non-blank after trim) is stored
untrimmed in both output rows. -/
theorem resolved_cell_is_raw_witness :
    (processRow [" v "] ["col"] (fun g => if g = "a" then " COL " else "") ["a"]
        ⟨[⟨"a", "A", true⟩], []⟩).processedRow[0]? = some " v "
  ∧ (processRow [" v "] ["col"] (fun g => if g = "a" then " COL " else "") ["a"]
        ⟨[⟨"a", "A", true⟩], []⟩).missingRow[0]? = some " v " :=
  resolved_cell_is_raw [" v "] ["col"] (fun g => if g = "a" then " COL " else "") ["a"]
    ⟨[⟨"a", "A", true⟩], []⟩ "a" 0 0 " v " (by decide) (Or.inr (by decide)) (by decide)
    (by decide) (by decide)

/-- C5: a non-mandatory field with an empty (or absent) mapping entry gets empty
strings in both output cells — never the `"MISSING"` sentinel — and has no
effect on the row's classification; a non-mandatory field with a non-empty
mapping that fails to resolve gets `"MISSING"` in the missing cell without
disqualifying the row. -/
theorem optional_field_policy (row normalizedHeaders : List String)
    (fieldMappings : String → String) (order : List String) (fieldConfig : FieldConfig)
    (f : String) (fidx : Nat)
    (horder : order[fidx]? = some f)
    (hopt : lookupMandatory fieldConfig f = false) :
    (fieldMappings f = "" →
      (processRow row normalizedHeaders fieldMappings order fieldConfig).processedRow[fidx]?
          = some ""
      ∧ (processRow row normalizedHeaders fieldMappings order fieldConfig).missingRow[fidx]?
          = some "")
  ∧ (fieldMappings f ≠ "" →
      resolveCell row normalizedHeaders (normalizeHeader (fieldMappings f)) = none →
      (processRow row normalizedHeaders fieldMappings order fieldConfig).processedRow[fidx]?
          = some ""
      ∧ (processRow row normalizedHeaders fieldMappings order fieldConfig).missingRow[fidx]?
          = some "MISSING")
  ∧ f ∉ (processRow row normalizedHeaders fieldMappings order fieldConfig).missingFields
  ∧ (∀ fieldMappings2 : String → String, (∀ g, g ≠ f → fieldMappings2 g = fieldMappings g) →
      (processRow row normalizedHeaders fieldMappings2 order fieldConfig).isSuccess =
        (processRow row normalizedHeaders fieldMappings order fieldConfig).isSuccess) := by
  refine ⟨?_, ?_, ?_, ?_⟩
  · intro he
    rw [processRow_eq]
    simp only [List.getElem?_map, horder, Option.map_some']
    constructor
    · rw [processedCell, if_pos ⟨he, hopt⟩]
    · rw [missingCell, if_pos ⟨he, hopt⟩]
  · intro he hres
    have hguard : ¬(fieldMappings f = "" ∧ lookupMandatory fieldConfig f = false) := by
      rintro ⟨h1, -⟩
      exact he h1
    rw [processRow_eq]
    simp only [List.getElem?_map, horder, Option.map_some']
    constructor
    · rw [processedCell, if_neg hguard, hres]
    · rw [missingCell, if_neg hguard, hres]
      simp [hopt, he]
  · rw [processRow_eq]
    show f ∉ failedMandatoryFields row normalizedHeaders fieldMappings order fieldConfig
    rw [failedMandatoryFields]
    intro hmem
    have := (List.mem_filter.mp hmem).2
    rw [hopt] at this
    simp at this
  · intro fieldMappings2 hsame
    have key1 := processRow_eq row normalizedHeaders fieldMappings order fieldConfig
    have key2 := processRow_eq row normalizedHeaders fieldMappings2 order fieldConfig
    rw [key1, key2]
    show (failedMandatoryFields row normalizedHeaders fieldMappings2 order fieldConfig).isEmpty =
      (failedMandatoryFields row normalizedHeaders fieldMappings order fieldConfig).isEmpty
    rw [failedMandatoryFields, failedMandatoryFields]
    congr 1
    apply List.filter_congr
    intro g _
    by_cases hg : g = f
    · subst hg
      rw [hopt]
      simp
    · rw [hsame g hg]

/-- Witness for C5: an unresolvable optional mapping yields `"MISSING"` in the
missing row, and the optional field is never recorded as a missing field. -/
theorem optional_field_policy_witness :
    (processRow [""] ["col"] (fun g => if g = "x" then "nope" else "") ["x"]
        ⟨[⟨"x", "X", false⟩], []⟩).missingRow[0]? = some "MISSING"
  ∧ "x" ∉ (processRow [""] ["col"] (fun g => if g = "x" then "nope" else "") ["x"]
        ⟨[⟨"x", "X", false⟩], []⟩).missingFields := by
  have h := optional_field_policy [""] ["col"] (fun g => if g = "x" then "nope" else "") ["x"]
    ⟨[⟨"x", "X", false⟩], []⟩ "x" 0 (by decide) (by decide)
  exact ⟨(h.2.1 (by decide) (by decide)).2, h.2.2.1⟩

/-- C8: when the rows were read and classified but the save of the chosen
output format fails, `processFile` still returns the fully computed summary in
the first slot and an empty artifact path in the second. -/
theorem summary_survives_save_error (rows : List (List String))
    (fieldMappings : String → String) (order : List String) (fieldConfig : FieldConfig)
    (outputFormat : String)
    (saveCSVResult saveMarkdownResult saveXLSXResult : Except String String) (e : String)
    (hrows : rows ≠ [])
    (herr : (if outputFormat = "csv" then saveCSVResult
             else if outputFormat = "markdown" then saveMarkdownResult
             else saveXLSXResult) = .error e) :
    processFileModel rows fieldMappings order fieldConfig outputFormat
        saveCSVResult saveMarkdownResult saveXLSXResult =
      (fileSummary rows fieldMappings order fieldConfig, "") := by
  have hlen : ¬(rows.length = 0) := by
    simpa [List.length_eq_zero] using hrows
  rw [processFileModel, if_neg hlen]
  by_cases h1 : outputFormat = "csv"
  · rw [if_pos h1] at herr
    simp only [if_pos h1, herr]
  · rw [if_neg h1] at herr
    by_cases h2 : outputFormat = "markdown"
    · rw [if_pos h2] at herr
      simp only [if_neg h1, if_pos h2, herr]
    · rw [if_neg h2] at herr
      simp only [if_neg h1, if_neg h2, herr]

/-- Witness for C8: a failing CSV save still returns the computed summary with
an empty artifact path. -/
theorem summary_survives_save_error_witness :
    processFileModel [["h"]] (fun _ => "") [] ⟨[], []⟩ "csv"
        (.error "disk full") (.ok "p") (.ok "q") =
      (fileSummary [["h"]] (fun _ => "") [] ⟨[], []⟩, "") :=
  summary_survives_save_error [["h"]] (fun _ => "") [] ⟨[], []⟩ "csv"
    (.error "disk full") (.ok "p") (.ok "q") "disk full" (by decide) rfl

/-- C10: a mandatory field with an empty mapping entry still has its (empty)
normalized mapped name searched among the normalized headers, so if some
source header normalizes to the empty string the field resolves from the
leftmost such column's non-blank cell, and it fails exactly when that search
yields no resolvable cell. -/
theorem mandatory_unmapped_matches_blank_header (row headers : List String)
    (fieldMappings : String → String) (order : List String) (fieldConfig : FieldConfig)
    (f : String) (fidx : Nat)
    (horder : order[fidx]? = some f)
    (hmand : lookupMandatory fieldConfig f = true)
    (hunmapped : fieldMappings f = "") :
    (∀ j c, findColumn (normalizeHeaders headers) "" = some j →
        row[j]? = some c → goTrim c ≠ "" →
        (processRow row (normalizeHeaders headers) fieldMappings order
            fieldConfig).processedRow[fidx]? = some c
        ∧ (processRow row (normalizeHeaders headers) fieldMappings order
            fieldConfig).missingRow[fidx]? = some c)
  ∧ (f ∈ (processRow row (normalizeHeaders headers) fieldMappings order
        fieldConfig).missingFields ↔
      resolveCell row (normalizeHeaders headers) "" = none) := by
  have hnorm : normalizeHeader (fieldMappings f) = "" := by
    rw [hunmapped]
    rfl
  constructor
  · intro j c hj hc hne
    have hres : resolveCell row (normalizeHeaders headers)
        (normalizeHeader (fieldMappings f)) = some c := by
      rw [hnorm]
      simp [resolveCell, hj, hc, hne]
    have hguard : ¬(fieldMappings f = "" ∧ lookupMandatory fieldConfig f = false) := by
      rintro ⟨-, h2⟩
      rw [hmand] at h2
      simp at h2
    rw [processRow_eq]
    simp only [List.getElem?_map, horder, Option.map_some']
    constructor
    · rw [processedCell, if_neg hguard, hres]
    · rw [missingCell, if_neg hguard, hres]
  · rw [processRow_eq]
    show f ∈ failedMandatoryFields row (normalizeHeaders headers) fieldMappings order
        fieldConfig ↔ _
    rw [failedMandatoryFields, List.mem_filter]
    rw [hnorm] at *
    constructor
    · rintro ⟨-, hpred⟩
      rw [hmand] at hpred
      simp only [Bool.true_and] at hpred
      rw [hnorm] at hpred
      exact Option.isNone_iff_eq_none.mp hpred
    · intro hres
      refine ⟨mem_of_idx horder, ?_⟩
      rw [hmand, hnorm, hres]
      rfl

/-- Witness for C10: with headers `[" ", "B"]` the unmapped mandatory field
resolves from the blank-named first column's cell `"val"`. -/
theorem mandatory_unmapped_matches_blank_header_witness :
    (processRow ["val"] (normalizeHeaders [" ", "B"]) (fun _ => "") ["m"]
        ⟨[⟨"m", "M", true⟩], []⟩).processedRow[0]? = some "val" := by
  have h := mandatory_unmapped_matches_blank_header ["val"] [" ", "B"] (fun _ => "") ["m"]
    ⟨[⟨"m", "M", true⟩], []⟩ "m" 0 (by decide) (by decide) (by decide)
  exact (h.1 0 "val" (by decide) (by decide) (by decide)).1

end ExcelMapper
